import Mathlib

/-!
Shallow embedding of the `cst-vba-compiler` repository (Python) in Lean 4.

Embedded modules:
* `src/cst_vba_compiler/writer.py` — the `VbaWriter` class. Its mutable
  object state (file handle output, indent depth, parameter dictionary,
  current scope) is embedded as an explicit `WriterState` record threaded
  through each method; the file sink is the list of chunks passed to
  `write`, in order. Methods that `raise` return `Except String`.
* `src/cst_vba_compiler/utils.py` — `wrap_nonstr_in_double_quotes` and
  `num_or_list_of_nums_to_str`.
* `src/cst_vba_compiler/solver/settings.py` — `Settings.Boundaries`.

Python runtime values that flow through these functions are one of
`bool`, `int`, `float`, `str`; they are embedded as the closed variant
type `Value`. A float value is carried by its shortest round-trip decimal
representation (the exact text Python's `repr` prints for it, e.g. `3.5`),
which avoids modelling IEEE-754 while keeping `repr` faithful on the
values the claims use. Python's `repr` on strings (quote-character choice
and backslash escaping) is modelled by `pyReprStr` for strings of
printable and common control characters.
-/

/-- The single-quote character (Python's default string-repr delimiter). -/
def squote : Char := Char.ofNat 39

/-- The double-quote character (VBA's string delimiter). -/
def dquote : Char := Char.ofNat 34

/-- The backslash character. -/
def bslash : Char := Char.ofNat 92

/-- The tab character used for one indentation unit. -/
def tabChar : Char := Char.ofNat 9

/-- Lower-case hexadecimal digit for `n % 16`, as Python prints in escapes. -/
def hexDigitChar (n : Nat) : Char :=
  if n < 10 then Char.ofNat (48 + n % 16) else Char.ofNat (87 + n % 16)

/-- How Python's string `repr` renders one character `c` inside a literal
delimited by `quote`: backslashes and the delimiter are backslash-escaped,
newline, carriage return and tab become two-character escapes, other
control characters become hexadecimal escapes, everything else is kept. -/
def pyEscapeChar (quote : Char) (c : Char) : List Char :=
  if c = bslash then [bslash, bslash]
  else if c = quote then [bslash, quote]
  else if c = Char.ofNat 10 then [bslash, Char.ofNat 110]
  else if c = Char.ofNat 13 then [bslash, Char.ofNat 114]
  else if c = Char.ofNat 9 then [bslash, Char.ofNat 116]
  else if c.toNat < 32 ∨ c.toNat = 127 then
    [bslash, Char.ofNat 120, hexDigitChar (c.toNat / 16), hexDigitChar (c.toNat % 16)]
  else [c]

/-- Python's `repr` delimiter choice for a string: single quotes, unless the
string contains a single quote and no double quote, in which case double
quotes are used. -/
def pyReprQuote (s : String) : Char :=
  if s.toList.contains squote ∧ ¬ s.toList.contains dquote then dquote else squote

/-- Python's `repr` on a string: the chosen delimiter around the escaped body. -/
def pyReprStr (s : String) : String :=
  let q := pyReprQuote s
  String.mk ([q] ++ (s.toList.map (pyEscapeChar q)).flatten ++ [q])

/-- Closed variant type for the Python runtime values these functions accept. -/
inductive Value where
  | VBool : Bool → Value
  | VInt : Int → Value
  | VFloat : String → Value
  | VStr : String → Value
deriving DecidableEq

/-- Python's `repr` on a `Value`: `True`/`False` for booleans, decimal text
for integers, the carried shortest decimal text for floats, and the quoted
escaped form for strings. -/
def pyRepr : Value → String
  | Value.VBool true => "True"
  | Value.VBool false => "False"
  | Value.VInt n => toString n
  | Value.VFloat r => r
  | Value.VStr s => pyReprStr s

/-- Python's `str.strip` with a single-quote argument: remove every leading
and every trailing single-quote character. -/
def stripSQuotes (s : String) : String :=
  String.mk (((s.toList.dropWhile fun c => c = squote).reverse.dropWhile
    fun c => c = squote).reverse)

/-- Embeds `VbaWriter.string_repr` (writer.py lines 77-88): take Python's
`repr` of the text, strip single quotes from both ends, and wrap the rest
in double quotes. -/
def VbaWriter.string_repr (text : String) : String :=
  "\"" ++ stripSQuotes (pyReprStr text) ++ "\""

/-- Embeds `VbaWriter.wrap_double_quotes` (writer.py lines 90-98): wrap the
`repr` of the value in double quotes. -/
def VbaWriter.wrap_double_quotes (value : Value) : String :=
  "\"" ++ pyRepr value ++ "\""

/-- Embeds `wrap_nonstr_in_double_quotes` (utils.py lines 11-18): strings
pass through unchanged, every other value is `repr`-ed and quoted. -/
def wrap_nonstr_in_double_quotes (value : Value) : String :=
  match value with
  | Value.VStr s => s
  | _ => VbaWriter.wrap_double_quotes value

/-- The accumulation loop of `num_or_list_of_nums_to_str` (utils.py lines
33-36): append each integer's `repr` and a comma to the accumulator. -/
def numListLoop : List Int → String → String
  | [], acc => acc
  | n :: rest, acc => numListLoop rest (acc ++ toString n ++ ",")

/-- Embeds `num_or_list_of_nums_to_str` (utils.py lines 21-37): a bare
integer goes through `wrap_nonstr_in_double_quotes`; a list is folded into
comma-terminated decimal text and then passed through `string_repr`. -/
def num_or_list_of_nums_to_str : Int ⊕ List Int → String
  | Sum.inl n => wrap_nonstr_in_double_quotes (Value.VInt n)
  | Sum.inr nums => VbaWriter.string_repr (numListLoop nums "")

/-- A record of the parameter dictionary (writer.py): the optional assigned
value and the VBA type string. -/
def ParamRecord := Option Value × String
deriving instance DecidableEq for ParamRecord

/-- The key of the parameter dictionary: parameter name and current scope. -/
def ParamKey := String × Option String
deriving instance DecidableEq for ParamKey

/-- The mutable state of a `VbaWriter` object: indent depth, the parameter
dictionary (as an insertion-ordered association list, matching a Python
dict), the current scope, and the sequence of chunks written to the file. -/
structure WriterState where
  indent_depth : Int
  parameters : List (ParamKey × ParamRecord)
  current_scope : Option String
  output : List String
deriving DecidableEq

/-- Lookup in the parameter dictionary. -/
def lookupParam (k : ParamKey) : List (ParamKey × ParamRecord) → Option ParamRecord
  | [] => none
  | (k2, r) :: rest => if k2 = k then some r else lookupParam k rest

/-- Insertion into the parameter dictionary: overwrite in place when the key
is present (Python dict semantics), otherwise append. -/
def insertParam (k : ParamKey) (r : ParamRecord) :
    List (ParamKey × ParamRecord) → List (ParamKey × ParamRecord)
  | [] => [(k, r)]
  | (k2, r2) :: rest =>
    if k2 = k then (k, r) :: rest else (k2, r2) :: insertParam k r rest

/-- Python's `"\t" * d`: `d` tabs for non-negative `d`, empty otherwise. -/
def tabs (d : Int) : String := String.mk (List.replicate d.toNat tabChar)

/-- How Python's f-string renders the current scope: `None` or the label. -/
def showScope : Option String → String
  | none => "None"
  | some s => s

/-- Embeds `VbaWriter.write` (writer.py lines 36-48): append the text,
prefixed by one tab per unit of current indent depth, to the sink. -/
def VbaWriter.write (s : WriterState) (text : String) : WriterState :=
  { s with output := s.output ++ [tabs s.indent_depth ++ text] }

/-- The state of a freshly constructed `VbaWriter` (writer.py lines 20-34):
depth zero, the boilerplate `Option Explicit` line already written, empty
parameter dictionary, no current scope. -/
def initialState : WriterState :=
  { indent_depth := 0, parameters := [], current_scope := none,
    output := ["Option Explicit\n"] }

/-- Embeds `VbaWriter.start_with` (writer.py lines 117-124): write the
`With` line, then increment the indent depth. -/
def VbaWriter.start_with (s : WriterState) (structure_name : String) : WriterState :=
  let s1 := VbaWriter.write s ("With " ++ structure_name ++ "\n")
  { s1 with indent_depth := s1.indent_depth + 1 }

/-- Embeds `VbaWriter.end_with` (writer.py lines 126-129): decrement the
indent depth, then write the `End With` line (at the decremented depth).
The source has no guard: the depth is decremented unconditionally. -/
def VbaWriter.end_with (s : WriterState) : WriterState :=
  VbaWriter.write { s with indent_depth := s.indent_depth - 1 } "End With\n"

/-- The Python type object passed as `declare_type` (its `__name__`). -/
inductive PyType where
  | bool | float | int | str | other (type_name : String)
deriving DecidableEq

/-- The `val_vba_content` computation shared by `assign_parameter` and
`add_parameter` (writer.py lines 193-195 and 268-270): `repr` of the value,
except strings go through `string_repr`. -/
def reprForAssign (value : Value) : String :=
  match value with
  | Value.VStr t => VbaWriter.string_repr t
  | _ => pyRepr value

/-- Embeds `VbaWriter.initialise_parameter` (writer.py lines 135-174):
resolve the VBA type (a literal string, or inferred from a Python type,
failing on unsupported types), record the parameter with value `None`, and
write the `Dim` line. -/
def VbaWriter.initialise_parameter (s : WriterState) (name : String)
    (declare_type : String ⊕ PyType) : Except String WriterState :=
  match declare_type with
  | Sum.inl t =>
    let ps := insertParam (name, s.current_scope) (none, t) s.parameters
    let s1 := { s with parameters := ps }
    Except.ok (VbaWriter.write s1 ("Dim " ++ name ++ " As " ++ t ++ "\n"))
  | Sum.inr pt =>
    match pt with
    | PyType.bool =>
      let ps := insertParam (name, s.current_scope) (none, "Boolean") s.parameters
      let s1 := { s with parameters := ps }
      Except.ok (VbaWriter.write s1 ("Dim " ++ name ++ " As Boolean\n"))
    | PyType.float =>
      let ps := insertParam (name, s.current_scope) (none, "Double") s.parameters
      let s1 := { s with parameters := ps }
      Except.ok (VbaWriter.write s1 ("Dim " ++ name ++ " As Double\n"))
    | PyType.int =>
      let ps := insertParam (name, s.current_scope) (none, "Integer") s.parameters
      let s1 := { s with parameters := ps }
      Except.ok (VbaWriter.write s1 ("Dim " ++ name ++ " As Integer\n"))
    | PyType.str =>
      let ps := insertParam (name, s.current_scope) (none, "String") s.parameters
      let s1 := { s with parameters := ps }
      Except.ok (VbaWriter.write s1 ("Dim " ++ name ++ " As String\n"))
    | PyType.other tn =>
      Except.error ("The type " ++ tn ++
        " does not have supported VBA type conversion.")

/-- Embeds `VbaWriter.assign_parameter` (writer.py lines 176-200): if the
key (name, current scope) is in the parameter dictionary, store the value
and write the assignment line; otherwise raise the "did not receive type
initialisation" error. -/
def VbaWriter.assign_parameter (s : WriterState) (name : String) (value : Value) :
    Except String WriterState :=
  match lookupParam (name, s.current_scope) s.parameters with
  | some r =>
    let ps := insertParam (name, s.current_scope) (some value, r.2) s.parameters
    let s1 := { s with parameters := ps }
    Except.ok (VbaWriter.write s1 (name ++ " = " ++ reprForAssign value ++ "\n"))
  | none =>
    Except.error ("Parameter " ++ name ++ " in scope " ++
      showScope s.current_scope ++ " did not receive type initialisation.")

/-- The successful tail of `add_parameter` (writer.py lines 262-274): record
the parameter with its value and resolved type, write the `Dim` line, then
write the assignment line. -/
def addParamCommit (s : WriterState) (name : String) (value : Value)
    (val_type : String) : WriterState :=
  let ps := insertParam (name, s.current_scope) (some value, val_type) s.parameters
  let s1 := { s with parameters := ps }
  let s2 := VbaWriter.write s1 ("Dim " ++ name ++ " As " ++ val_type ++ "\n")
  VbaWriter.write s2 (name ++ " = " ++ reprForAssign value ++ "\n")

/-- Embeds `VbaWriter.add_parameter` (writer.py lines 202-274): infer the
VBA type when `declare_type` is absent (booleans before integers, matching
the Python `match` order; integers must fit the signed 16-bit range, else
the method raises before any state change or write), then commit. -/
def VbaWriter.add_parameter (s : WriterState) (name : String) (value : Value)
    (declare_type : Option String) : Except String WriterState :=
  match declare_type with
  | some t => Except.ok (addParamCommit s name value t)
  | none =>
    match value with
    | Value.VBool _ => Except.ok (addParamCommit s name value "Boolean")
    | Value.VFloat _ => Except.ok (addParamCommit s name value "Double")
    | Value.VInt n =>
      if -(2 ^ 15) ≤ n ∧ n ≤ 2 ^ 15 - 1 then
        Except.ok (addParamCommit s name value "Integer")
      else
        Except.error ("Size of value: " ++ toString n ++
          " cannot be represented by a 16-bit integer, as required by VBA.")
    | Value.VStr _ => Except.ok (addParamCommit s name value "String")

/-- Embeds `Settings.Boundaries` (solver/settings.py lines 111-172): open
the `Boundary` block, write the `ApplyInAllDirections` line, then either
the per-direction boundary lines (note the source writes `.Zmin` for both
components of `z_boundaries`) or the single `boundary_type` line, and close
the block. -/
def Settings.Boundaries (w : WriterState) (apply_in_all_directions : Bool)
    (x_boundaries y_boundaries z_boundaries : Option (String × String))
    (boundary_type : Option String) : WriterState :=
  let w1 := VbaWriter.start_with w "Boundary"
  let w2 := VbaWriter.write w1 (".ApplyInAllDirections " ++
    wrap_nonstr_in_double_quotes (Value.VBool apply_in_all_directions) ++ "\n")
  let w3 :=
    if apply_in_all_directions = false then
      let wx :=
        match x_boundaries with
        | some xb =>
          VbaWriter.write
            (VbaWriter.write w2 (".Xmin " ++ VbaWriter.string_repr xb.1 ++ "\n"))
            (".Xmax " ++ VbaWriter.string_repr xb.2 ++ "\n")
        | none => w2
      let wy :=
        match y_boundaries with
        | some yb =>
          VbaWriter.write
            (VbaWriter.write wx (".Ymin " ++ VbaWriter.string_repr yb.1 ++ "\n"))
            (".Ymax " ++ VbaWriter.string_repr yb.2 ++ "\n")
        | none => wx
      match z_boundaries with
      | some zb =>
        VbaWriter.write
          (VbaWriter.write wy (".Zmin " ++ VbaWriter.string_repr zb.1 ++ "\n"))
          (".Zmin " ++ VbaWriter.string_repr zb.2 ++ "\n")
      | none => wy
    else
      match boundary_type with
      | some t => VbaWriter.write w2 (".Xmin " ++ VbaWriter.string_repr t ++ "\n")
      | none => w2
  VbaWriter.end_with w3

/-- One call in a block-nesting call sequence: `start_with` or `end_with`. -/
inductive BlockOp where
  | startWith (structure_name : String)
  | endWith
deriving DecidableEq

/-- Run a sequence of block calls against a writer state. -/
def runBlockOps (s : WriterState) : List BlockOp → WriterState
  | [] => s
  | BlockOp.startWith n :: rest => runBlockOps (VbaWriter.start_with s n) rest
  | BlockOp.endWith :: rest => runBlockOps (VbaWriter.end_with s) rest

/-- Number of `start_with` calls in a sequence. -/
def countStart : List BlockOp → Nat
  | [] => 0
  | BlockOp.startWith _ :: rest => countStart rest + 1
  | BlockOp.endWith :: rest => countStart rest

/-- Number of `end_with` calls in a sequence. -/
def countEnd : List BlockOp → Nat
  | [] => 0
  | BlockOp.startWith _ :: rest => countEnd rest
  | BlockOp.endWith :: rest => countEnd rest + 1

/-- Modelled from the spec: the body scanner of the host (VBA) double-quote
string-literal convention, in which the delimiter is the double quote and
an embedded double quote is written as two consecutive double quotes. It
consumes characters up to the closing delimiter; a doubled quote yields one
quote character; it fails on an unterminated literal or when input remains
after the closing delimiter. The repository contains no parser, so this is
the host-convention reading rule the spec's round-trip property refers to. -/
def vbaParseBody : List Char → Option (List Char)
  | [] => none
  | [c] => if c = dquote then some [] else none
  | c :: c2 :: rest =>
    if c = dquote then
      if c2 = dquote then (vbaParseBody rest).map fun l => dquote :: l
      else none
    else (vbaParseBody (c2 :: rest)).map fun l => c :: l

/-- Modelled from the spec: parse a complete VBA double-quoted string
literal, recovering the text it denotes. -/
def vbaParseString (s : String) : Option String :=
  match s.toList with
  | [] => none
  | c :: rest =>
    if c = dquote then (vbaParseBody rest).map fun l => String.mk l
    else none

/-- Characters that Python's string `repr` passes through unchanged and
that are not quote or backslash characters: printable, not a single or
double quote, not a backslash. Decimal digits, the minus sign and the
comma are all plain. -/
def plainChar (c : Char) : Bool :=
  c != squote && c != dquote && c != bslash &&
    decide (32 ≤ c.toNat) && c.toNat != 127

/-! ### Helper lemmas shared by several claims -/

/-- Looking up a key right after inserting it yields the inserted record. -/
theorem lookupParam_insertParam (k : ParamKey) (r : ParamRecord)
    (ps : List (ParamKey × ParamRecord)) :
    lookupParam k (insertParam k r ps) = some r := by
  induction ps with
  | nil => simp [insertParam, lookupParam]
  | cons p rest ih =>
    obtain ⟨k2, r2⟩ := p
    by_cases h : k2 = k
    · simp [insertParam, lookupParam, h]
    · simp [insertParam, lookupParam, h, ih]

/-- Unfolding of `assign_parameter` when the key is present. -/
theorem assign_parameter_found (s : WriterState) (n : String) (v : Value)
    (r0 : ParamRecord)
    (hl : lookupParam (n, s.current_scope) s.parameters = some r0) :
    VbaWriter.assign_parameter s n v =
      Except.ok (VbaWriter.write
        { s with parameters := (insertParam (n, s.current_scope)
            (some v, r0.2) s.parameters) }
        (n ++ " = " ++ reprForAssign v ++ "\n")) := by
  rw [VbaWriter.assign_parameter, hl]

/-- Claim C1 (counterexample): against the claim, `end_with` called at
indentation depth zero does not fail: the depth becomes `-1` (negative) and
the `End With` line is emitted. -/
theorem end_with_zero_depth_counterexample :
    (VbaWriter.end_with initialState).indent_depth < 0 ∧
    (VbaWriter.end_with initialState).output =
      initialState.output ++ ["End With\n"] := by
  constructor
  · decide
  · rfl

/-- Claim C1 (amended): on every writer state at indentation depth zero,
`end_with` silently decrements the depth to `-1` and emits the `End With`
line (with zero tabs, since Python's string repetition of a negative count
is empty); there is no guard and no error. -/
theorem end_with_zero_depth_amended (s : WriterState) (h : s.indent_depth = 0) :
    VbaWriter.end_with s =
      { s with indent_depth := -1, output := s.output ++ ["End With\n"] } := by
  rw [VbaWriter.end_with, VbaWriter.write, h]
  rfl

/-- Claim C1 (witness for the amended theorem): the amended behaviour at the
freshly constructed writer state. -/
theorem end_with_zero_depth_amended_witness :
    VbaWriter.end_with initialState =
      { initialState with
        indent_depth := -1,
        output := initialState.output ++ ["End With\n"] } :=
  end_with_zero_depth_amended initialState rfl

/-- Claim C2 (code evaluated at the failing input): for the text `a"b`,
which contains an embedded double quote, `string_repr` leaves the embedded
quote unescaped, producing `"a"b"`; re-parsing that under the host (VBA)
double-quote convention fails (the literal terminates after `a`, leaving
trailing input), so the round trip does not recover the original text. -/
theorem string_repr_embedded_quote_failing :
    VbaWriter.string_repr "a\"b" = "\"a\"b\"" ∧
    vbaParseString (VbaWriter.string_repr "a\"b") = none ∧
    vbaParseString "\"a\"\"b\"" = some "a\"b" := by
  refine ⟨rfl, rfl, rfl⟩

/-- Claim C5 (counterexample): in the branch for an explicitly supplied
z-direction boundary pair, the duplicated member line uses `Zmin`, not
`Xmin` as the claim states: at a concrete input the two z lines are
`.Zmin "electric"` and `.Zmin "magnetic"`, neither of which is an `.Xmin`
line. -/
theorem boundaries_z_branch_counterexample :
    (Settings.Boundaries initialState false none none
        (some ("electric", "magnetic")) none).output =
      ["Option Explicit\n", "With Boundary\n",
       "\t.ApplyInAllDirections \"False\"\n",
       "\t.Zmin \"electric\"\n", "\t.Zmin \"magnetic\"\n", "End With\n"] ∧
    ("\t.Zmin \"electric\"\n" : String) ≠ "\t.Xmin \"electric\"\n" ∧
    ("\t.Zmin \"magnetic\"\n" : String) ≠ "\t.Xmin \"magnetic\"\n" := by
  refine ⟨rfl, by decide, by decide⟩

/-- Claim C5 (amended): for every writer state and every explicitly supplied
z-direction boundary pair, the boundary-condition emitter writes the same
member line `Zmin` for both the z-minimum and the z-maximum boundary values
instead of a distinct min/max member pair. -/
theorem boundaries_z_branch_amended (s : WriterState) (zb : String × String) :
    (Settings.Boundaries s false none none (some zb) none).output =
      s.output ++
      [tabs s.indent_depth ++ "With Boundary\n",
       tabs (s.indent_depth + 1) ++
         (".ApplyInAllDirections " ++
           wrap_nonstr_in_double_quotes (Value.VBool false) ++ "\n"),
       tabs (s.indent_depth + 1) ++ (".Zmin " ++ VbaWriter.string_repr zb.1 ++ "\n"),
       tabs (s.indent_depth + 1) ++ (".Zmin " ++ VbaWriter.string_repr zb.2 ++ "\n"),
       tabs s.indent_depth ++ "End With\n"] := by
  simp [Settings.Boundaries, VbaWriter.start_with, VbaWriter.end_with,
    VbaWriter.write, List.append_assoc]

/-- Claim C7: `wrap_nonstr_in_double_quotes` passes every string value
through unchanged; applied to the float `3.5` it yields `"3.5"`; applied to
the boolean `True` it yields `"True"` (the host boolean spelling); and for
every non-string value kind (booleans, integers, floats) it yields the
value's default textual representation wrapped in double quotes. -/
theorem wrap_nonstr_in_double_quotes_spec :
    (∀ s, wrap_nonstr_in_double_quotes (Value.VStr s) = s) ∧
    wrap_nonstr_in_double_quotes (Value.VFloat "3.5") = "\"3.5\"" ∧
    wrap_nonstr_in_double_quotes (Value.VBool true) = "\"True\"" ∧
    (∀ b, wrap_nonstr_in_double_quotes (Value.VBool b) =
      "\"" ++ pyRepr (Value.VBool b) ++ "\"") ∧
    (∀ n, wrap_nonstr_in_double_quotes (Value.VInt n) =
      "\"" ++ pyRepr (Value.VInt n) ++ "\"") ∧
    (∀ r, wrap_nonstr_in_double_quotes (Value.VFloat r) =
      "\"" ++ pyRepr (Value.VFloat r) ++ "\"") :=
  ⟨fun _ => rfl, rfl, rfl, fun _ => rfl, fun _ => rfl, fun _ => rfl⟩

/-- Claim C8: on every writer state, `add_parameter` with name `n`, value
`100` and no explicit type infers VBA type `Integer`, records the
parameter, and emits exactly the two lines `Dim n As Integer` and
`n = 100`, each prefixed by the current indentation depth in tab units. -/
theorem add_parameter_n_100 (s : WriterState) :
    VbaWriter.add_parameter s "n" (Value.VInt 100) none =
      Except.ok { s with
        parameters := (insertParam ("n", s.current_scope)
          (some (Value.VInt 100), "Integer") s.parameters),
        output := (s.output ++ [tabs s.indent_depth ++ "Dim n As Integer\n",
          tabs s.indent_depth ++ "n = 100\n"]) } := by
  rw [VbaWriter.add_parameter]
  rw [if_pos (by decide)]
  simp [addParamCommit, VbaWriter.write, List.append_assoc]
  rfl

/-- Claim C9: starting from indentation depth zero, the sequence
`start_with "Box"`, `write ".Name \x22myBox\x22"`, `end_with` appends
exactly the three chunks `With Box`, tab + `.Name "myBox"`, `End With` to
the sink, and the final depth is back to zero. -/
theorem box_block_scenario (s : WriterState) (h : s.indent_depth = 0) :
    VbaWriter.end_with
        (VbaWriter.write (VbaWriter.start_with s "Box") ".Name \"myBox\"\n") =
      { s with output := s.output ++
        ["With Box\n", "\t.Name \"myBox\"\n", "End With\n"] } := by
  rw [VbaWriter.start_with, VbaWriter.end_with]
  simp [VbaWriter.write, h, List.append_assoc]
  exact ⟨rfl, rfl, rfl⟩

/-- Claim C9 (witness): the scenario evaluated on the freshly constructed
writer state. -/
theorem box_block_scenario_witness :
    VbaWriter.end_with
        (VbaWriter.write (VbaWriter.start_with initialState "Box")
          ".Name \"myBox\"\n") =
      { initialState with output := initialState.output ++
        ["With Box\n", "\t.Name \"myBox\"\n", "End With\n"] } :=
  box_block_scenario initialState rfl

/-- The indentation depth after running a sequence of block calls: the
starting depth plus the number of `start_with` calls minus the number of
`end_with` calls. -/
theorem runBlockOps_indent_depth (ops : List BlockOp) : ∀ s : WriterState,
    (runBlockOps s ops).indent_depth =
      s.indent_depth + countStart ops - countEnd ops := by
  induction ops with
  | nil => intro s; simp [runBlockOps, countStart, countEnd]
  | cons op rest ih =>
    intro s
    cases op with
    | startWith n =>
      rw [runBlockOps, ih, countStart, countEnd]
      simp only [VbaWriter.start_with, VbaWriter.write]
      omega
    | endWith =>
      rw [runBlockOps, ih, countStart, countEnd]
      simp only [VbaWriter.end_with, VbaWriter.write]
      omega

/-- Claim C6: for every properly matched sequence of `start_with`/`end_with`
calls (equal counts, and no prefix with more `end_with` than `start_with`
calls) run from indentation depth zero, the final indentation depth is zero
and the depth is non-negative after every call of the sequence. -/
theorem balanced_blocks_final_depth_zero (s : WriterState) (ops : List BlockOp)
    (h0 : s.indent_depth = 0)
    (heq : countEnd ops = countStart ops)
    (hpfx : ∀ k, countEnd (ops.take k) ≤ countStart (ops.take k)) :
    (runBlockOps s ops).indent_depth = 0 ∧
    ∀ k, 0 ≤ (runBlockOps s (ops.take k)).indent_depth := by
  constructor
  · rw [runBlockOps_indent_depth]
    omega
  · intro k
    have h1 := runBlockOps_indent_depth (ops.take k) s
    have h2 := hpfx k
    omega

/-- Claim C6 (witness): the matched sequence of one `start_with "Box"` and
one `end_with` run from the fresh writer state ends at depth zero. -/
theorem balanced_blocks_final_depth_zero_witness :
    (runBlockOps initialState
      [BlockOp.startWith "Box", BlockOp.endWith]).indent_depth = 0 :=
  (balanced_blocks_final_depth_zero initialState
    [BlockOp.startWith "Box", BlockOp.endWith] rfl rfl
    (fun k => by
      match k with
      | 0 => decide
      | 1 => decide
      | m + 2 =>
        rw [List.take_of_length_le (by simp)]
        decide)).1

/-- Claim C4: `add_parameter` with an integer value outside the signed
16-bit range and no explicit type returns the "cannot be represented by a
16-bit integer" error; in the source the `raise` happens before the
dictionary insertion and before both `write` calls, so the error return in
this embedding carries no successor state: nothing is emitted and the
parameter table is untouched. Integers inside the range infer VBA type
`Integer`, and the committed state stores the record with that type. -/
theorem add_parameter_int_range (s : WriterState) (n : String) (v : Int)
    (h : v < -(2 ^ 15) ∨ 2 ^ 15 - 1 < v) :
    VbaWriter.add_parameter s n (Value.VInt v) none =
      Except.error ("Size of value: " ++ toString v ++
        " cannot be represented by a 16-bit integer, as required by VBA.") ∧
    (∀ w : Int, -(2 ^ 15) ≤ w ∧ w ≤ 2 ^ 15 - 1 →
      VbaWriter.add_parameter s n (Value.VInt w) none =
        Except.ok (addParamCommit s n (Value.VInt w) "Integer") ∧
      lookupParam (n, s.current_scope)
          (addParamCommit s n (Value.VInt w) "Integer").parameters =
        some (some (Value.VInt w), "Integer")) := by
  constructor
  · rw [VbaWriter.add_parameter, if_neg]
    intro hc
    rcases h with h | h
    · have := hc.1
      omega
    · have := hc.2
      omega
  · intro w hw
    constructor
    · rw [VbaWriter.add_parameter, if_pos hw]
    · exact lookupParam_insertParam _ _ _

/-- Claim C4 (witness): at value `40000` the call fails with the
out-of-range error; at value `100` it succeeds with inferred type
`Integer`. -/
theorem add_parameter_int_range_witness :
    VbaWriter.add_parameter initialState "n" (Value.VInt 40000) none =
      Except.error ("Size of value: 40000 cannot be represented by a " ++
        "16-bit integer, as required by VBA.") ∧
    VbaWriter.add_parameter initialState "n" (Value.VInt 100) none =
      Except.ok (addParamCommit initialState "n" (Value.VInt 100) "Integer") := by
  have h := add_parameter_int_range initialState "n" 40000 (by omega)
  refine ⟨?_, (h.2 100 (by omega)).1⟩
  rw [h.1]
  rfl

/-- Claim C3: `assign_parameter` fails with the "did not receive type
initialisation" error exactly when the key (name, current scope) is absent
from the parameter dictionary; and after any successful declaration of the
name via `initialise_parameter`, the assignment succeeds, the stored
record's value equals the assigned value, and exactly one assignment line
is emitted at the current indentation depth. -/
theorem assign_parameter_declare_before_assign (s : WriterState) (n : String)
    (v : Value) :
    ((∃ e, VbaWriter.assign_parameter s n v = Except.error e) ↔
      lookupParam (n, s.current_scope) s.parameters = none) ∧
    (∀ dt s1, VbaWriter.initialise_parameter s n dt = Except.ok s1 →
      ∃ s2, VbaWriter.assign_parameter s1 n v = Except.ok s2 ∧
        (∃ ty, lookupParam (n, s1.current_scope) s2.parameters =
          some (some v, ty)) ∧
        s2.output = s1.output ++
          [tabs s1.indent_depth ++ (n ++ " = " ++ reprForAssign v ++ "\n")]) := by
  constructor
  · cases hl : lookupParam (n, s.current_scope) s.parameters with
    | none =>
      rw [VbaWriter.assign_parameter, hl]
      exact ⟨fun _ => rfl, fun _ => ⟨_, rfl⟩⟩
    | some r =>
      rw [assign_parameter_found s n v r hl]
      simp [hl]
  · intro dt s1 h1
    cases dt with
    | inl t =>
      rw [VbaWriter.initialise_parameter] at h1
      injection h1 with h2
      subst h2
      exact ⟨_, assign_parameter_found _ n v (none, t)
          (lookupParam_insertParam _ _ _),
        ⟨t, lookupParam_insertParam _ _ _⟩, rfl⟩
    | inr pt =>
      cases pt with
      | bool =>
        rw [VbaWriter.initialise_parameter] at h1
        injection h1 with h2
        subst h2
        exact ⟨_, assign_parameter_found _ n v (none, "Boolean")
            (lookupParam_insertParam _ _ _),
          ⟨"Boolean", lookupParam_insertParam _ _ _⟩, rfl⟩
      | float =>
        rw [VbaWriter.initialise_parameter] at h1
        injection h1 with h2
        subst h2
        exact ⟨_, assign_parameter_found _ n v (none, "Double")
            (lookupParam_insertParam _ _ _),
          ⟨"Double", lookupParam_insertParam _ _ _⟩, rfl⟩
      | int =>
        rw [VbaWriter.initialise_parameter] at h1
        injection h1 with h2
        subst h2
        exact ⟨_, assign_parameter_found _ n v (none, "Integer")
            (lookupParam_insertParam _ _ _),
          ⟨"Integer", lookupParam_insertParam _ _ _⟩, rfl⟩
      | str =>
        rw [VbaWriter.initialise_parameter] at h1
        injection h1 with h2
        subst h2
        exact ⟨_, assign_parameter_found _ n v (none, "String")
            (lookupParam_insertParam _ _ _),
          ⟨"String", lookupParam_insertParam _ _ _⟩, rfl⟩
      | other tn =>
        rw [VbaWriter.initialise_parameter] at h1
        exact Except.noConfusion h1

/-- Claim C3 (witness): on the fresh writer state, assigning to the
undeclared `x` fails; after declaring `x` as `Integer`, assigning `5`
succeeds, stores the value, and emits the assignment line. -/
theorem assign_parameter_declare_before_assign_witness :
    (∃ e, VbaWriter.assign_parameter initialState "x" (Value.VInt 5) =
      Except.error e) ∧
    (∃ s2, VbaWriter.assign_parameter
        { indent_depth := 0,
          parameters := [(("x", none), (none, "Integer"))],
          current_scope := none,
          output := ["Option Explicit\n", "Dim x As Integer\n"] }
        "x" (Value.VInt 5) = Except.ok s2 ∧
      (∃ ty, lookupParam ("x", none) s2.parameters =
        some (some (Value.VInt 5), ty)) ∧
      s2.output = ["Option Explicit\n", "Dim x As Integer\n"] ++
        [tabs 0 ++ ("x" ++ " = " ++ reprForAssign (Value.VInt 5) ++ "\n")]) :=
  ⟨(assign_parameter_declare_before_assign initialState "x" (Value.VInt 5)).1.mpr
      rfl,
    (assign_parameter_declare_before_assign initialState "x" (Value.VInt 5)).2
      (Sum.inl "Integer") _ rfl⟩

/-! ### Lemmas for claim C10: characters of integer decimal text -/

/-- Decimal digit characters are plain. -/
theorem digitChar_plain (m : Nat) (h : m < 10) :
    plainChar (Nat.digitChar m) = true := by
  interval_cases m <;> decide

/-- Every character accumulated by `Nat.toDigitsCore` at base 10 is plain,
provided the starting accumulator holds only plain characters. -/
theorem toDigitsCore_plain (f : Nat) : ∀ (n : Nat) (ds : List Char),
    (∀ c ∈ ds, plainChar c = true) →
    ∀ c ∈ Nat.toDigitsCore 10 f n ds, plainChar c = true := by
  induction f with
  | zero => intro n ds h c hc; exact h c hc
  | succ f ih =>
    intro n ds h c hc
    rw [Nat.toDigitsCore] at hc
    by_cases hd : n / 10 = 0
    · simp only [hd, if_pos] at hc
      rcases List.mem_cons.mp hc with rfl | hc2
      · exact digitChar_plain _ (Nat.mod_lt _ (by omega))
      · exact h c hc2
    · simp only [hd, if_neg, ite_false] at hc
      refine ih (n / 10) _ ?_ c hc
      intro d hd2
      rcases List.mem_cons.mp hd2 with rfl | hd3
      · exact digitChar_plain _ (Nat.mod_lt _ (by omega))
      · exact h d hd3

/-- Every character of the decimal representation of a natural number is
plain. -/
theorem natRepr_plain (n : Nat) : ∀ c ∈ (Nat.repr n).toList, plainChar c = true := by
  intro c hc
  exact toDigitsCore_plain (n + 1) n [] (by simp) c hc

/-- Every character of the decimal representation of an integer is plain
(digits and possibly a minus sign). -/
theorem intToString_plain (i : Int) :
    ∀ c ∈ (toString i).toList, plainChar c = true := by
  cases i with
  | ofNat m => exact natRepr_plain m
  | negSucc m =>
    intro c hc
    have he : (toString (Int.negSucc m)).toList =
        '-' :: (Nat.repr (m + 1)).toList := rfl
    rw [he] at hc
    rcases List.mem_cons.mp hc with rfl | hc2
    · decide
    · exact natRepr_plain (m + 1) c hc2

/-- Every character produced by the accumulation loop of
`num_or_list_of_nums_to_str` is plain, provided the accumulator is. -/
theorem numListLoop_plain (l : List Int) : ∀ acc : String,
    (∀ c ∈ acc.toList, plainChar c = true) →
    ∀ c ∈ (numListLoop l acc).toList, plainChar c = true := by
  induction l with
  | nil => intro acc h c hc; exact h c hc
  | cons n rest ih =>
    intro acc h c hc
    refine ih _ ?_ c hc
    intro d hd
    have he : (acc ++ toString n ++ ",").toList =
        acc.toList ++ ((toString n).toList ++ [',']) := by
      show (acc ++ toString n ++ ",").data =
        acc.data ++ ((toString n).data ++ [','])
      simp [String.data_append]
    rw [he] at hd
    rcases List.mem_append.mp hd with hd1 | hd2
    · exact h d hd1
    · rcases List.mem_append.mp hd2 with hd3 | hd4
      · exact intToString_plain n d hd3
      · rcases List.mem_singleton.mp hd4 with rfl
        decide

/-! ### Lemmas for claim C10: `string_repr` on plain strings -/

/-- On a plain character, `pyEscapeChar` with a quote delimiter is the
identity. -/
theorem pyEscapeChar_plain (q c : Char) (hq : q = squote ∨ q = dquote)
    (h : plainChar c = true) : pyEscapeChar q c = [c] := by
  simp only [plainChar, Bool.and_eq_true, bne_iff_ne, ne_eq,
    decide_eq_true_eq] at h
  obtain ⟨⟨⟨⟨h1, h2⟩, h3⟩, h4⟩, h5⟩ := h
  have h5n : c.toNat ≠ 127 := by simpa using h5
  have hnl : ¬ c = Char.ofNat 10 := by
    intro e
    have : c.toNat = 10 := by rw [e]; decide
    omega
  have hcr : ¬ c = Char.ofNat 13 := by
    intro e
    have : c.toNat = 13 := by rw [e]; decide
    omega
  have htab : ¬ c = Char.ofNat 9 := by
    intro e
    have : c.toNat = 9 := by rw [e]; decide
    omega
  have hq2 : ¬ c = q := by
    rcases hq with rfl | rfl
    · exact h1
    · exact h2
  rw [pyEscapeChar, if_neg h3, if_neg hq2, if_neg hnl, if_neg hcr,
    if_neg htab, if_neg (by omega)]

/-- Escaping a list of plain characters and flattening gives it back. -/
theorem flatten_map_pyEscapeChar (q : Char) (hq : q = squote ∨ q = dquote) :
    ∀ l : List Char, (∀ c ∈ l, plainChar c = true) →
      (l.map (pyEscapeChar q)).flatten = l := by
  intro l
  induction l with
  | nil => intro _; rfl
  | cons c rest ih =>
    intro h
    rw [List.map_cons, List.flatten_cons,
      pyEscapeChar_plain q c hq (h c (by simp)),
      ih (fun d hd => h d (by simp [hd]))]
    rfl

/-- A string of plain characters contains no single quote, so Python's
`repr` delimits it with single quotes. -/
theorem pyReprQuote_plain (s : String) (h : ∀ c ∈ s.toList, plainChar c = true) :
    pyReprQuote s = squote := by
  rw [pyReprQuote, if_neg]
  intro hc
  have hm : squote ∈ s.toList := by
    have := hc.1
    simpa [List.contains_iff_exists_mem_beq, beq_iff_eq] using this
  have := h squote hm
  simp [plainChar] at this

/-- Python's `repr` of a string of plain characters is the string between
single quotes, with no escaping. -/
theorem pyReprStr_plain (s : String) (h : ∀ c ∈ s.toList, plainChar c = true) :
    pyReprStr s = String.mk (squote :: (s.toList ++ [squote])) := by
  rw [pyReprStr]
  simp only [pyReprQuote_plain s h]
  rw [flatten_map_pyEscapeChar squote (Or.inl rfl) s.toList h]
  rfl

/-- Dropping leading single quotes from a list that contains none is the
identity. -/
theorem dropWhile_no_squote (l : List Char) (h : squote ∉ l) :
    (l.dropWhile fun c => c = squote) = l := by
  cases l with
  | nil => rfl
  | cons c rest =>
    have hc : ¬ c = squote := fun e => h (by simp [e])
    simp [List.dropWhile_cons, hc]

/-- Stripping single quotes from a single-quote-wrapped list of characters
that itself contains no single quote recovers the inner list. -/
theorem stripSQuotes_wrap (l : List Char) (h : squote ∉ l) :
    stripSQuotes (String.mk (squote :: (l ++ [squote]))) = String.mk l := by
  rw [stripSQuotes]
  have ht : (String.mk (squote :: (l ++ [squote]))).toList =
      squote :: (l ++ [squote]) := rfl
  rw [ht]
  have h2 : ((squote :: (l ++ [squote])).dropWhile fun d => decide (d = squote)) =
      ((l ++ [squote]).dropWhile fun d => decide (d = squote)) := by
    rw [List.dropWhile_cons]
    simp
  rw [h2]
  cases l with
  | nil => rfl
  | cons c rest =>
    have hc : ¬ c = squote := fun e => h (by simp [e])
    have hrev : squote ∉ rest.reverse ++ [c] := by
      intro hm
      rcases List.mem_append.mp hm with hm1 | hm2
      · exact h (by simp [List.mem_reverse.mp hm1])
      · exact hc (List.mem_singleton.mp hm2).symm
    have h3 : (((c :: rest) ++ [squote]).dropWhile fun d => decide (d = squote)) =
        (c :: rest) ++ [squote] := by
      rw [List.cons_append, List.dropWhile_cons]
      simp [hc]
    rw [h3]
    have h4 : ((c :: rest) ++ [squote]).reverse =
        squote :: (rest.reverse ++ [c]) := by
      simp
    rw [h4]
    have h5 : ((squote :: (rest.reverse ++ [c])).dropWhile
        fun d => decide (d = squote)) = rest.reverse ++ [c] := by
      rw [List.dropWhile_cons]
      simp [dropWhile_no_squote _ hrev]
    rw [h5]
    congr 1
    simp

/-- On a string of plain characters, `string_repr` is exactly double-quote
wrapping: no character is escaped or altered. -/
theorem string_repr_plain (s : String) (h : ∀ c ∈ s.toList, plainChar c = true) :
    VbaWriter.string_repr s = "\"" ++ s ++ "\"" := by
  rw [VbaWriter.string_repr, pyReprStr_plain s h]
  have hns : squote ∉ s.toList := by
    intro hm
    have := h squote hm
    simp [plainChar] at this
  rw [stripSQuotes_wrap s.toList hns]
  have he : String.mk s.toList = s := rfl
  rw [he]

/-! ### Lemmas for claim C10: the accumulation loop -/

/-- Prepending to the accumulator of the accumulation loop factors out. -/
theorem numListLoop_factor (l : List Int) : ∀ acc : String,
    numListLoop l acc = acc ++ numListLoop l "" := by
  induction l with
  | nil => intro acc; simp [numListLoop]
  | cons n rest ih =>
    intro acc
    rw [numListLoop, ih (acc ++ toString n ++ ",")]
    rw [numListLoop, ih ("" ++ toString n ++ ",")]
    simp [String.append_assoc]

/-- One step of `String.join`. -/
theorem string_join_cons (a : String) (l : List String) :
    String.join (a :: l) = a ++ String.join l := by
  apply String.ext
  simp [String.join_eq]

/-- The accumulation loop computes the join of the comma-terminated decimal
representations of the elements, in order. -/
theorem numListLoop_eq_join (l : List Int) :
    numListLoop l "" = String.join (l.map fun n => toString n ++ ",") := by
  induction l with
  | nil => rfl
  | cons n rest ih =>
    rw [numListLoop, numListLoop_factor, ih, List.map_cons, string_join_cons]
    simp

/-- Claim C10: a bare integer yields its decimal representation wrapped in
double quotes with no comma; a non-empty list of integers yields the
elements' decimal representations in order, each followed by a comma
(including after the last element), all wrapped in double quotes. -/
theorem num_or_list_of_nums_to_str_spec (l : List Int) (hl : l ≠ []) :
    (∀ n : Int, num_or_list_of_nums_to_str (Sum.inl n) =
      "\"" ++ toString n ++ "\"") ∧
    num_or_list_of_nums_to_str (Sum.inr l) =
      "\"" ++ String.join (l.map fun n => toString n ++ ",") ++ "\"" := by
  constructor
  · intro n; rfl
  · rw [num_or_list_of_nums_to_str,
      string_repr_plain _ (numListLoop_plain l "" (by simp)),
      numListLoop_eq_join]

/-- Claim C10 (witness): the list `[1, 2, 3]` yields `"1,2,3,"` with a
trailing comma, and the bare integer `7` yields `"7"` with no comma. -/
theorem num_or_list_of_nums_to_str_spec_witness :
    num_or_list_of_nums_to_str (Sum.inr [1, 2, 3]) = "\"1,2,3,\"" ∧
    num_or_list_of_nums_to_str (Sum.inl 7) = "\"7\"" := by
  have h := num_or_list_of_nums_to_str_spec [1, 2, 3] (by simp)
  refine ⟨?_, h.1 7⟩
  rw [h.2]
  rfl
